import Mathlib

/-!
Verification of the connection-handling and request/response engine of the
embedded-recruitment-task TCP echo server (src/server.rs).

The per-connection handler `Client::handle` (src/server.rs:64-95) is embedded
as a pure function over an explicit script of socket events: the results of
the successive `stream.read` calls and of the successive
`write_all`+`flush` pairs.  The dispatcher `Server::run` / `Server::stop` /
`Server::new` (src/server.rs:117-183) are embedded as explicit state passing
over a `Server` record whose `isRunning` field models the content of the
`Arc<Mutex<bool>>` running flag.

The message codec (the prost-generated module `messages.rs`, produced by the
schema compiler from the proto schema; it is not part of src/) is modelled
from the spec as a concrete protobuf wire-format codec for the message kinds
the spec names: `EchoMessage{content: string}`, `AddRequest{a,b: int32}`,
`AddResponse{result: int32}`, and the tagged client/server unions.

Bytes are modelled as `List Nat` with values below 256; machine integers are
`Nat`/`Int`.
-/

/-- Modelled from the spec: the external message codec's base-128 varint
decoder (prost `decode_varint`).  Reads little-endian 7-bit groups; a byte
below 128 terminates.  Returns the decoded value and the remaining bytes, or
`none` on a truncated varint.  (prost additionally caps varints at 10 bytes /
64 bits; no value in scope approaches that bound.) -/
def decodeVarint : List Nat → Option (Nat × List Nat)
  | [] => none
  | b :: rest =>
    if b < 128 then some (b, rest)
    else
      match decodeVarint rest with
      | some (v, r) => some (v * 128 + (b - 128), r)
      | none => none

/-- Modelled from the spec: fuel-driven worker for the varint encoder; the
fuel only makes the recursion structural, `n` itself is always enough fuel. -/
def encodeVarintF : Nat → Nat → List Nat
  | 0, n => [n]
  | fuel + 1, n =>
    if n < 128 then [n]
    else (n % 128 + 128) :: encodeVarintF fuel (n / 128)

/-- Modelled from the spec: the external message codec's base-128 varint
encoder (prost `encode_varint`). -/
def encodeVarint (n : Nat) : List Nat :=
  encodeVarintF n n

/-- Modelled from the spec: lower bound of the first continuation byte of a
multi-byte UTF-8 sequence (tightened for lead bytes 0xE0 and 0xF0 to reject
overlong encodings). -/
def utf8ContLo (b : Nat) : Nat :=
  if b = 0xE0 then 0xA0 else if b = 0xF0 then 0x90 else 0x80

/-- Modelled from the spec: upper bound of the first continuation byte of a
multi-byte UTF-8 sequence (tightened for lead bytes 0xED and 0xF4 to reject
surrogates and code points above U+10FFFF). -/
def utf8ContHi (b : Nat) : Nat :=
  if b = 0xED then 0x9F else if b = 0xF4 then 0x8F else 0xBF

/-- Modelled from the spec: UTF-8 validity of a byte sequence, as checked by
the codec when decoding a protobuf `string` field (prost decodes `string`
through `str::from_utf8` and fails on invalid UTF-8). -/
def utf8Valid : List Nat → Bool
  | [] => true
  | b :: t =>
    if b < 0x80 then utf8Valid t
    else if b < 0xC2 then false
    else if b < 0xE0 then
      match t with
      | c1 :: t' => if 0x80 ≤ c1 ∧ c1 ≤ 0xBF then utf8Valid t' else false
      | [] => false
    else if b < 0xF0 then
      match t with
      | c1 :: c2 :: t' =>
        if (utf8ContLo b ≤ c1 ∧ c1 ≤ utf8ContHi b) ∧ (0x80 ≤ c2 ∧ c2 ≤ 0xBF)
        then utf8Valid t' else false
      | _ => false
    else if b < 0xF5 then
      match t with
      | c1 :: c2 :: c3 :: t' =>
        if (utf8ContLo b ≤ c1 ∧ c1 ≤ utf8ContHi b) ∧ (0x80 ≤ c2 ∧ c2 ≤ 0xBF) ∧
           (0x80 ≤ c3 ∧ c3 ≤ 0xBF)
        then utf8Valid t' else false
      | _ => false
    else false

/-- Modelled from the spec: the wire message `EchoMessage{content: string}`.
The content is the UTF-8 byte sequence of the string. -/
structure EchoMessage where
  content : List Nat
deriving DecidableEq

/-- Modelled from the spec: prost encoding of a bare `EchoMessage`
(`Message::encode_to_vec`).  Field 1, wire type 2 (tag byte 0x0A), preceded
by the varint payload length; a default (empty) string field is omitted, so
`EchoMessage{content: \u{22}\u{22}}` encodes to zero bytes. -/
def encodeEcho (m : EchoMessage) : List Nat :=
  if m.content = [] then [] else 10 :: (encodeVarint m.content.length ++ m.content)

/-- Modelled from the spec: skipping one unknown field's payload given its
wire type (prost `skip_field`): varint (0), fixed 64-bit (1),
length-delimited (2), fixed 32-bit (5).  The deprecated group wire types
(3, 4) are treated as undecodable; no encoder in this system produces them. -/
def skipField (wt : Nat) (l : List Nat) : Option (List Nat) :=
  if wt = 0 then
    match decodeVarint l with
    | some (_, r) => some r
    | none => none
  else if wt = 1 then
    if 8 ≤ l.length then some (l.drop 8) else none
  else if wt = 2 then
    match decodeVarint l with
    | some (len, r) => if len ≤ r.length then some (r.drop len) else none
    | none => none
  else if wt = 5 then
    if 4 ≤ l.length then some (l.drop 4) else none
  else none

/-- Modelled from the spec: the field-merging loop of `EchoMessage::decode`.
`acc` is the current value of the `content` field (proto3 last-one-wins);
each iteration reads a field key, merges field 1 (checking the wire type and
UTF-8 validity of the payload) and skips unknown fields.  The fuel argument
only makes the recursion structural; every iteration consumes at least one
byte, so `length + 1` fuel is always enough. -/
def parseFieldsF : Nat → List Nat → List Nat → Option (List Nat)
  | _, acc, [] => some acc
  | 0, _, _ :: _ => none
  | fuel + 1, acc, b :: t =>
    match decodeVarint (b :: t) with
    | none => none
    | some (key, r1) =>
      if key / 8 = 0 then none
      else if key / 8 = 1 then
        if key % 8 = 2 then
          match decodeVarint r1 with
          | none => none
          | some (len, r2) =>
            if len ≤ r2.length then
              if utf8Valid (r2.take len) then parseFieldsF fuel (r2.take len) (r2.drop len)
              else none
            else none
        else none
      else
        match skipField (key % 8) r1 with
        | none => none
        | some r2 => parseFieldsF fuel acc r2

/-- Modelled from the spec: `EchoMessage::decode` on the bytes of one read
(prost `Message::decode`), succeeding with the merged message or failing on
malformed input. -/
def decodeEcho (l : List Nat) : Option EchoMessage :=
  (parseFieldsF (l.length + 1) [] l).map (fun c => EchoMessage.mk c)

/-- Modelled from the spec: the wire message `AddRequest{a: int32, b: int32}`. -/
structure AddRequest where
  a : Int
  b : Int
deriving DecidableEq

/-- Modelled from the spec: the wire message `AddResponse{result: int32}`. -/
structure AddResponse where
  result : Int
deriving DecidableEq

/-- Modelled from the spec: prost varint encoding of an `int32` field value;
a negative value is sign-extended to 64 bits before varint encoding. -/
def encodeVarintOfInt (i : Int) : List Nat :=
  encodeVarint ((i % (2 ^ 64 : Int)).toNat)

/-- Modelled from the spec: prost encoding of a bare `AddRequest` (field 1
`a` tag 0x08, field 2 `b` tag 0x10, both varint; default zero fields are
omitted). -/
def encodeAddRequest (m : AddRequest) : List Nat :=
  (if m.a = 0 then [] else 8 :: encodeVarintOfInt m.a) ++
  (if m.b = 0 then [] else 16 :: encodeVarintOfInt m.b)

/-- Modelled from the spec: prost encoding of a bare `AddResponse` (field 1
`result` tag 0x08, varint; default zero omitted). -/
def encodeAddResponse (m : AddResponse) : List Nat :=
  if m.result = 0 then [] else 8 :: encodeVarintOfInt m.result

/-- Modelled from the spec: the request union `client_message::Message`, a
oneof with variants `EchoMessage` (field 1) and `AddRequest` (field 2). -/
inductive ClientMessage where
  | echoMessage (m : EchoMessage)
  | addRequest (m : AddRequest)
deriving DecidableEq

/-- Modelled from the spec: the response union `server_message::Message`, a
oneof with variants `EchoMessage` (field 1) and `AddResponse` (field 2). -/
inductive ServerMessage where
  | echoMessage (m : EchoMessage)
  | addResponse (m : AddResponse)
deriving DecidableEq

/-- Modelled from the spec: prost encoding of the tagged `ClientMessage`
union: the set oneof variant is always emitted as one length-delimited
field (tag 0x0A for `echo_message`, 0x12 for `add_request`). -/
def encodeClientMessage : ClientMessage → List Nat
  | .echoMessage m => 10 :: (encodeVarint (encodeEcho m).length ++ encodeEcho m)
  | .addRequest m => 18 :: (encodeVarint (encodeAddRequest m).length ++ encodeAddRequest m)

/-- Modelled from the spec: prost encoding of the tagged `ServerMessage`
union (tag 0x0A for `echo_message`, 0x12 for `add_response`). -/
def encodeServerMessage : ServerMessage → List Nat
  | .echoMessage m => 10 :: (encodeVarint (encodeEcho m).length ++ encodeEcho m)
  | .addResponse m => 18 :: (encodeVarint (encodeAddResponse m).length ++ encodeAddResponse m)

/-- Embeds `std::io::Error` as an opaque error code. -/
structure IoError where
  code : Nat
deriving DecidableEq

/-- Result of one `stream.read(&mut buffer)` call in `Client::handle`
(src/server.rs:69): `closed` is `Ok(0)` (orderly peer shutdown), `data bs`
is `Ok(n)` delivering the bytes `bs = buffer[..n]` (so `bs.length ≤ 4096`
and `bs ≠ []`), `readErr e` is `Err(e)`. -/
inductive ReadResult where
  | closed
  | data (bs : List Nat)
  | readErr (e : IoError)
deriving DecidableEq

/-- Outcome of `Client::handle` run against a finite socket script:
`ok w` models `return Ok(())` (clean disconnect), `err e w` models
`return Err(e)`, `pending w` means the script is exhausted with the handler
still blocked in its loop (no return yet); `w` lists the successfully
written response payloads in write order. -/
inductive HandlerResult where
  | ok (written : List (List Nat))
  | err (e : IoError) (written : List (List Nat))
  | pending (written : List (List Nat))
deriving DecidableEq

/-- Prepends one successfully written payload to the write log of a handler
outcome. -/
def HandlerResult.consWritten (p : List Nat) : HandlerResult → HandlerResult
  | .ok w => .ok (p :: w)
  | .err e w => .err e (p :: w)
  | .pending w => .pending (p :: w)

/-- Write log of a handler outcome. -/
def writtenOf : HandlerResult → List (List Nat)
  | .ok w => w
  | .err _ w => w
  | .pending w => w

/-- Embeds `Client::handle` (src/server.rs:64-95).  The loop consumes one
`ReadResult` per iteration.  `Ok(0)` returns `Ok(())`; `Err(e)` returns
`Err(e)`; on data, `EchoMessage::decode(&buffer[..bytes_read])` is tried:
on failure the loop continues without responding, on success the re-encoded
message is written (`write_all` then `flush`, collapsed into one scripted
outcome from `writes`: `none` is success, `some e` a write or flush failure
propagated by the `?` operator). -/
def Client.handle : List ReadResult → List (Option IoError) → HandlerResult
  | [], _ => .pending []
  | .closed :: _, _ => .ok []
  | .readErr e :: _, _ => .err e []
  | .data bs :: rs, ws =>
    match decodeEcho bs with
    | none => Client.handle rs ws
    | some m =>
      match ws with
      | [] => .pending []
      | some e :: _ => .err e []
      | none :: ws' => HandlerResult.consWritten (encodeEcho m) (Client.handle rs ws')

/-- Socket operations of one handler in program order: `rd r` is a completed
`stream.read` with result `r`, `wr p` is a completed `write_all(&p)` plus
`flush`. -/
inductive SockOp where
  | rd (r : ReadResult)
  | wr (payload : List Nat)
deriving DecidableEq

/-- Embeds the operation order of `Client::handle`: the sequence of completed
socket operations the handler performs against a script.  Mirrors
`Client.handle`; a read is emitted before the response write, and the next
read appears only after the previous response's write and flush completed. -/
def Client.trace : List ReadResult → List (Option IoError) → List SockOp
  | [], _ => []
  | .closed :: _, _ => [.rd .closed]
  | .readErr e :: _, _ => [.rd (.readErr e)]
  | .data bs :: rs, ws =>
    SockOp.rd (.data bs) ::
      (match decodeEcho bs with
       | none => Client.trace rs ws
       | some m =>
         match ws with
         | [] => []
         | some _ :: _ => []
         | none :: ws' => SockOp.wr (encodeEcho m) :: Client.trace rs ws')

/-- Embeds the spawned worker closure of `Server::run` (src/server.rs:147-151):
`if let Err(e) = client.handle() { error!(..) }` — the closure returns unit;
the value below is the error it logs, if any. -/
def workerLog (reads : List ReadResult) (writes : List (Option IoError)) : Option IoError :=
  match Client.handle reads writes with
  | .err e _ => some e
  | _ => none

/-- Embeds the `Server` struct (src/server.rs:99-104): `maxClients` the
stored (unused) limit, `isRunning` the boolean inside the
`Arc<Mutex<bool>>`, `workers` the spawned worker handles, each recorded here
by the error its thread logs (`none` for a clean handler). -/
structure Server where
  maxClients : Nat
  isRunning : Bool
  workers : List (Option IoError)
deriving DecidableEq

/-- Log line `Server::stop` emits (src/server.rs:175-183). -/
inductive StopLog where
  | shutdownSent
  | alreadyStopped
deriving DecidableEq

/-- Embeds `Server::new` (src/server.rs:117-126): `TcpListener::bind` may
fail (`bindError = some e`); on success the running flag starts `true` and
the worker list empty. -/
def Server.new (maxClients : Nat) (bindError : Option IoError) : Except IoError Server :=
  match bindError with
  | some e => .error e
  | none => .ok { maxClients := maxClients, isRunning := true, workers := [] }

/-- Embeds `Server::stop` (src/server.rs:175-183): locks the flag; if true,
sets it false and logs the shutdown; otherwise logs a warning and leaves the
state unchanged. -/
def Server.stop (s : Server) : Server × StopLog :=
  if s.isRunning then ({ s with isRunning := false }, .shutdownSent)
  else (s, .alreadyStopped)

/-- Result of one `listener.accept()` call in `Server::run`
(src/server.rs:141-162): a new connection (with the socket script its
handler will consume), an `ErrorKind::WouldBlock` error, or another accept
error. -/
inductive AcceptResult where
  | conn (reads : List ReadResult) (writes : List (Option IoError))
  | wouldBlock
  | acceptErr (e : IoError)
deriving DecidableEq

/-- One iteration of the accept loop: `stopBefore` records whether a
concurrent `Server::stop` call lands before this iteration's loop-condition
check of the shared flag, `accept` the result `listener.accept()` would
deliver. -/
structure Iter where
  stopBefore : Bool
  accept : AcceptResult
deriving DecidableEq

/-- Observable state of `Server::run` against a finite schedule:
`returnedOk` models the loop exiting on a false flag, logging the stop and
returning `Ok(())`; `pending` means the schedule is exhausted with the flag
still true (run is still looping or blocked in accept). -/
inductive RunStatus where
  | returnedOk
  | pending
deriving DecidableEq

/-- Shared-flag value seen by an iteration's loop-condition check: the flag
as left by the previous iteration, after any concurrent `stop` recorded for
this iteration has landed. -/
def Server.stepFlag (s : Server) (it : Iter) : Server :=
  if it.stopBefore then (s.stop).1 else s

/-- Embeds the accept loop of `Server::run` (src/server.rs:136-167): while
the locked flag reads true, accept; a connection spawns a worker (pushed
onto `workers`, its thread logging any handler error), `WouldBlock` sleeps
100 ms and retries, any other accept error is logged and the loop continues;
a false flag exits the loop, which logs and returns `Ok(())`. -/
def Server.runLoop (s : Server) : List Iter → Server × RunStatus
  | [] => (s, .pending)
  | it :: rest =>
    if (s.stepFlag it).isRunning then
      match it.accept with
      | .conn reads writes =>
        Server.runLoop
          { s.stepFlag it with
            workers := (s.stepFlag it).workers ++ [workerLog reads writes] } rest
      | .wouldBlock => Server.runLoop (s.stepFlag it) rest
      | .acceptErr _ => Server.runLoop (s.stepFlag it) rest
    else (s.stepFlag it, .returnedOk)

/-- Replaces the socket script of every connection in a schedule, leaving
the accept outcomes' kinds and the stop interleaving unchanged. -/
def Iter.mapConn
    (f : List ReadResult × List (Option IoError) → List ReadResult × List (Option IoError)) :
    Iter → Iter
  | ⟨sb, .conn reads writes⟩ => ⟨sb, .conn (f (reads, writes)).1 (f (reads, writes)).2⟩
  | ⟨sb, .wouldBlock⟩ => ⟨sb, .wouldBlock⟩
  | ⟨sb, .acceptErr e⟩ => ⟨sb, .acceptErr e⟩

/-- Response payload the handler produces for one read result: the
re-encoding of the `EchoMessage` decoded from the read's bytes, when the
read delivered bytes that decode. -/
def echoResponseOf : ReadResult → Option (List Nat)
  | .data bs => (decodeEcho bs).map (fun m => encodeEcho m)
  | _ => none
theorem decodeVarint_encodeVarintF (fuel : Nat) :
    ∀ (n : Nat), n ≤ fuel → ∀ (rest : List Nat),
      decodeVarint (encodeVarintF fuel n ++ rest) = some (n, rest) := by
  induction fuel with
  | zero =>
    intro n hn rest
    have h0 : n = 0 := Nat.le_zero.mp hn
    subst h0
    simp [encodeVarintF, decodeVarint]
  | succ k ih =>
    intro n hn rest
    by_cases h : n < 128
    · simp [encodeVarintF, decodeVarint, h]
    · have hb : ¬ (n % 128 + 128 < 128) := by omega
      have hdiv : n / 128 ≤ k := by omega
      simp only [encodeVarintF, if_neg h, List.cons_append]
      rw [decodeVarint]
      rw [if_neg hb]
      rw [ih (n / 128) hdiv rest]
      simp only [Option.some.injEq, Prod.mk.injEq]
      constructor
      · omega
      · trivial

theorem decodeVarint_encodeVarint (n : Nat) (rest : List Nat) :
    decodeVarint (encodeVarint n ++ rest) = some (n, rest) :=
  decodeVarint_encodeVarintF n n le_rfl rest

theorem parseFieldsF_nil (fuel : Nat) (acc : List Nat) :
    parseFieldsF fuel acc [] = some acc := by
  cases fuel <;> rfl

/-- Decoding a canonical encoding of an `EchoMessage` with UTF-8 valid
content recovers exactly that message. -/
theorem decodeEcho_encodeEcho (c : List Nat) (h : utf8Valid c = true) :
    decodeEcho (encodeEcho (EchoMessage.mk c)) = some (EchoMessage.mk c) := by
  rcases eq_or_ne c [] with hc | hc
  · subst hc; rfl
  · unfold decodeEcho encodeEcho
    simp only [hc, if_neg, ite_false]
    have hlen : (10 :: (encodeVarint c.length ++ c)).length + 1
        = ((encodeVarint c.length ++ c).length + 1) + 1 := by
      simp [List.length_cons]
    rw [hlen]
    rw [parseFieldsF]
    have h10 : decodeVarint (10 :: (encodeVarint c.length ++ c))
        = some (10, encodeVarint c.length ++ c) := by
      rw [decodeVarint]
      norm_num
    rw [h10]
    norm_num
    rw [decodeVarint_encodeVarint c.length c]
    simp [List.take_length, List.drop_length, parseFieldsF_nil, h]


theorem handle_data_none (bs : List Nat) (rs : List ReadResult)
    (ws : List (Option IoError)) (h : decodeEcho bs = none) :
    Client.handle (ReadResult.data bs :: rs) ws = Client.handle rs ws := by
  rw [Client.handle, h]

theorem handle_data_some (bs : List Nat) (m : EchoMessage) (rs : List ReadResult)
    (ws : List (Option IoError)) (h : decodeEcho bs = some m) :
    Client.handle (ReadResult.data bs :: rs) (none :: ws)
      = HandlerResult.consWritten (encodeEcho m) (Client.handle rs ws) := by
  rw [Client.handle, h]

theorem handle_data_writeErr (bs : List Nat) (m : EchoMessage) (rs : List ReadResult)
    (e : IoError) (ws : List (Option IoError)) (h : decodeEcho bs = some m) :
    Client.handle (ReadResult.data bs :: rs) (some e :: ws) = HandlerResult.err e [] := by
  rw [Client.handle, h]

theorem trace_data_some (bs : List Nat) (m : EchoMessage) (rs : List ReadResult)
    (ws : List (Option IoError)) (h : decodeEcho bs = some m) :
    Client.trace (ReadResult.data bs :: rs) (none :: ws)
      = SockOp.rd (ReadResult.data bs) :: SockOp.wr (encodeEcho m) :: Client.trace rs ws := by
  rw [Client.trace, h]

theorem trace_data_none (bs : List Nat) (rs : List ReadResult)
    (ws : List (Option IoError)) (h : decodeEcho bs = none) :
    Client.trace (ReadResult.data bs :: rs) ws
      = SockOp.rd (ReadResult.data bs) :: Client.trace rs ws := by
  rw [Client.trace, h]

theorem writtenOf_consWritten (p : List Nat) (r : HandlerResult) :
    writtenOf (HandlerResult.consWritten p r) = p :: writtenOf r := by
  cases r <;> rfl

theorem stop_isRunning (s : Server) : (s.stop).1.isRunning = false := by
  by_cases h : s.isRunning <;> simp [Server.stop, h]

theorem stop_fst_of_not_running (s : Server) (h : s.isRunning = false) : (s.stop).1 = s := by
  simp [Server.stop, h]

theorem stepFlag_of_not_running (s : Server) (it : Iter) (h : s.isRunning = false) :
    s.stepFlag it = s := by
  cases hb : it.stopBefore <;> simp [Server.stepFlag, hb, stop_fst_of_not_running s h]

theorem runLoop_stopped (s : Server) (h : s.isRunning = false) (it : Iter)
    (rest : List Iter) : s.runLoop (it :: rest) = (s, RunStatus.returnedOk) := by
  rw [Server.runLoop, stepFlag_of_not_running s it h]
  simp [h]

theorem runLoop_no_stop_isRunning :
    ∀ (iters : List Iter) (s : Server), (∀ it ∈ iters, it.stopBefore = false) →
      (s.runLoop iters).1.isRunning = s.isRunning := by
  intro iters
  induction iters with
  | nil => intro s _; rfl
  | cons it rest ih =>
    intro s h
    have h1 : it.stopBefore = false := h it (List.mem_cons_self it rest)
    have h2 : ∀ it' ∈ rest, it'.stopBefore = false :=
      fun it' hm => h it' (List.mem_cons_of_mem _ hm)
    rw [Server.runLoop]
    have hsf : s.stepFlag it = s := by simp [Server.stepFlag, h1]
    rw [hsf]
    by_cases hr : s.isRunning
    · rw [if_pos hr]
      cases it.accept with
      | conn reads writes => rw [ih _ h2]
      | wouldBlock => rw [ih _ h2]
      | acceptErr e => rw [ih _ h2]
    · rw [if_neg hr]

theorem stepFlag_isRunning_congr (s t : Server) (it it' : Iter)
    (h : s.isRunning = t.isRunning) (hsb : it.stopBefore = it'.stopBefore) :
    (s.stepFlag it).isRunning = (t.stepFlag it').isRunning := by
  unfold Server.stepFlag
  rw [← hsb]
  cases hb : it.stopBefore
  · simpa using h
  · simp [stop_isRunning]

theorem runLoop_status_ext
    (f : List ReadResult × List (Option IoError) → List ReadResult × List (Option IoError)) :
    ∀ (iters : List Iter) (s t : Server), s.isRunning = t.isRunning →
      ((s.runLoop iters).2 = (t.runLoop (iters.map (Iter.mapConn f))).2 ∧
       (s.runLoop iters).1.isRunning = (t.runLoop (iters.map (Iter.mapConn f))).1.isRunning) := by
  intro iters
  induction iters with
  | nil => intro s t h; exact ⟨rfl, h⟩
  | cons it rest ih =>
    intro s t h
    obtain ⟨sb, acc⟩ := it
    have hsb : (Iter.mapConn f ⟨sb, acc⟩).stopBefore = sb := by cases acc <;> rfl
    have hsf : (s.stepFlag ⟨sb, acc⟩).isRunning
        = (t.stepFlag (Iter.mapConn f ⟨sb, acc⟩)).isRunning :=
      stepFlag_isRunning_congr s t ⟨sb, acc⟩ (Iter.mapConn f ⟨sb, acc⟩) h hsb.symm
    cases acc with
    | conn reads writes =>
      simp only [List.map_cons, Iter.mapConn]
      rw [Server.runLoop, Server.runLoop]
      simp only [Iter.mapConn] at hsf
      by_cases hr : (s.stepFlag ⟨sb, AcceptResult.conn reads writes⟩).isRunning
      · rw [if_pos hr, if_pos (hsf ▸ hr)]
        exact ih _ _ (by simpa using hsf)
      · rw [if_neg hr, if_neg (fun hc => hr (hsf.symm ▸ hc))]
        exact ⟨rfl, hsf⟩
    | wouldBlock =>
      simp only [List.map_cons, Iter.mapConn]
      rw [Server.runLoop, Server.runLoop]
      simp only [Iter.mapConn] at hsf
      by_cases hr : (s.stepFlag ⟨sb, AcceptResult.wouldBlock⟩).isRunning
      · rw [if_pos hr, if_pos (hsf ▸ hr)]
        exact ih _ _ (by simpa using hsf)
      · rw [if_neg hr, if_neg (fun hc => hr (hsf.symm ▸ hc))]
        exact ⟨rfl, hsf⟩
    | acceptErr e =>
      simp only [List.map_cons, Iter.mapConn]
      rw [Server.runLoop, Server.runLoop]
      simp only [Iter.mapConn] at hsf
      by_cases hr : (s.stepFlag ⟨sb, AcceptResult.acceptErr e⟩).isRunning
      · rw [if_pos hr, if_pos (hsf ▸ hr)]
        exact ih _ _ (by simpa using hsf)
      · rw [if_neg hr, if_neg (fun hc => hr (hsf.symm ▸ hc))]
        exact ⟨rfl, hsf⟩

/-- Claim C1: "For every AddRequest{a, b} successfully received on an
established connection, the handler computes and sends back
AddResponse{result = a + b} (in particular a=10, b=20 yields result=30)."
The code does not do this: `Client::handle` (src/server.rs:82-93) only ever
tries `EchoMessage::decode` and echoes the result.  Evaluated at the claim's
own input a=10, b=20: the client-side bytes for `AddRequest{10, 20}` are
`[18, 4, 8, 10, 16, 20]`; the handler decodes them as a bare `EchoMessage`
with empty content (the unknown field 2 is skipped) and writes back the
empty payload — zero bytes on the wire — while `AddResponse{result = 30}`
would be `[18, 2, 8, 30]` inside the response union (or `[8, 30]` bare),
which is never produced.  This matches the repo's own ignored test
`test_client_add_request`. -/
theorem c1_add_request_never_answered :
    encodeClientMessage (ClientMessage.addRequest ⟨10, 20⟩) = [18, 4, 8, 10, 16, 20] ∧
    decodeEcho [18, 4, 8, 10, 16, 20] = some ⟨[]⟩ ∧
    Client.handle [ReadResult.data [18, 4, 8, 10, 16, 20]] [none]
      = HandlerResult.pending [[]] ∧
    encodeServerMessage (ServerMessage.addResponse ⟨30⟩) = [18, 2, 8, 30] ∧
    encodeAddResponse ⟨30⟩ = [8, 30] ∧
    writtenOf (Client.handle [ReadResult.data [18, 4, 8, 10, 16, 20]] [none]) = [[]] := by
  decide

/-- Claim C2: for every valid `EchoMessage{content = c}` delivered by a
single read, the handler's next response is the encoding of
`EchoMessage{content = c}`: decoding the read bytes recovers exactly `c`,
and the payload written before the next read is its byte-identical
re-encoding. -/
theorem c2_echo_roundtrip (c : List Nat) (h : utf8Valid c = true)
    (rs : List ReadResult) (ws : List (Option IoError)) :
    decodeEcho (encodeEcho ⟨c⟩) = some ⟨c⟩ ∧
    Client.handle (ReadResult.data (encodeEcho ⟨c⟩) :: rs) (none :: ws)
      = HandlerResult.consWritten (encodeEcho ⟨c⟩) (Client.handle rs ws) := by
  refine ⟨decodeEcho_encodeEcho c h, ?_⟩
  exact handle_data_some _ _ rs ws (decodeEcho_encodeEcho c h)

/-- Claim C3: a read whose bytes fail to decode produces no response and
does not terminate the handler: the handler behaves exactly as if the read
had not happened, and a subsequent valid message on the same connection is
still answered normally. -/
theorem c3_decode_failure_dropped :
    (∀ (bad : List Nat) (rs : List ReadResult) (ws : List (Option IoError)),
        decodeEcho bad = none →
        Client.handle (ReadResult.data bad :: rs) ws = Client.handle rs ws) ∧
    (∀ (bad c : List Nat) (rs : List ReadResult) (ws : List (Option IoError)),
        decodeEcho bad = none → utf8Valid c = true →
        Client.handle (ReadResult.data bad :: ReadResult.data (encodeEcho ⟨c⟩) :: rs)
            (none :: ws)
          = HandlerResult.consWritten (encodeEcho ⟨c⟩) (Client.handle rs ws)) := by
  constructor
  · intro bad rs ws h
    exact handle_data_none bad rs ws h
  · intro bad c rs ws hbad hc
    rw [handle_data_none bad _ _ hbad]
    exact handle_data_some _ _ rs ws (decodeEcho_encodeEcho c hc)

/-- Claim C4: whenever a read returns zero bytes (`Ok(0)`, orderly peer
shutdown), the handler terminates successfully returning `Ok(())`, whatever
reads or write outcomes would have followed. -/
theorem c4_clean_disconnect_ok (rs : List ReadResult) (ws : List (Option IoError)) :
    Client.handle (ReadResult.closed :: rs) ws = HandlerResult.ok [] := rfl

/-- Claim C5: a failing read makes the handler terminate returning exactly
that error; a failing write (after a successful decode) likewise; the
spawning closure catches and logs the error, returning unit; and the run
loop's outcome is unchanged under arbitrary replacement of every
connection's socket script, so no handler I/O error ever reaches `run()`'s
result or another connection. -/
theorem c5_io_errors_are_connection_local :
    (∀ (e : IoError) (rs : List ReadResult) (ws : List (Option IoError)),
        Client.handle (ReadResult.readErr e :: rs) ws = HandlerResult.err e []) ∧
    (∀ (bs : List Nat) (m : EchoMessage) (rs : List ReadResult) (e : IoError)
        (ws : List (Option IoError)), decodeEcho bs = some m →
        Client.handle (ReadResult.data bs :: rs) (some e :: ws) = HandlerResult.err e []) ∧
    (∀ (e : IoError) (rs : List ReadResult) (ws : List (Option IoError)),
        workerLog (ReadResult.readErr e :: rs) ws = some e) ∧
    (∀ (f : List ReadResult × List (Option IoError)
          → List ReadResult × List (Option IoError))
        (iters : List Iter) (s : Server),
        (s.runLoop (iters.map (Iter.mapConn f))).2 = (s.runLoop iters).2) := by
  refine ⟨fun e rs ws => rfl, ?_, fun e rs ws => rfl, ?_⟩
  · intro bs m rs e ws h
    exact handle_data_writeErr bs m rs e ws h
  · intro f iters s
    exact ((runLoop_status_ext f iters s s rfl).1).symm

/-- Claim C6: `stop()` always leaves the flag false; a second `stop()`
right after a first one logs the already-stopped warning and changes
nothing (so stop-then-stop equals a single stop); on an already-stopped
server `stop()` warns and is a no-op, and on a running server it sets the
flag false and logs the shutdown. -/
theorem c6_stop_idempotent (s : Server) :
    (s.stop).1.isRunning = false ∧
    ((s.stop).1).stop = ((s.stop).1, StopLog.alreadyStopped) ∧
    (Server.mk s.maxClients false s.workers).stop
      = (Server.mk s.maxClients false s.workers, StopLog.alreadyStopped) ∧
    (Server.mk s.maxClients true s.workers).stop
      = (Server.mk s.maxClients false s.workers, StopLog.shutdownSent) := by
  refine ⟨stop_isRunning s, ?_, by simp [Server.stop], by simp [Server.stop]⟩
  have h := stop_isRunning s
  rw [Server.stop, h]
  simp

/-- Claim C7: once the running flag is false, the next loop-condition check
makes `run()` exit its loop and return `Ok(())` — no accept is performed,
no worker is spawned and the server state (outstanding workers included) is
left untouched, whatever the rest of the schedule held. -/
theorem c7_flag_false_exits_loop (s : Server) (it : Iter) (rest : List Iter)
    (h : s.isRunning = false) :
    s.runLoop (it :: rest) = (s, RunStatus.returnedOk) :=
  runLoop_stopped s h it rest

/-- Claim C8: sending N sequential valid echo messages on one connection,
each delivered as one read with all writes succeeding, yields exactly the N
re-encoded responses in the order sent, and the handler's socket-operation
trace strictly alternates read, write-and-flush, read, ... — it never
begins the next read before the previous response is fully written and
flushed. -/
theorem c8_sequential_echoes_in_order (msgs : List (List Nat))
    (h : msgs.all utf8Valid = true) :
    Client.handle
        (msgs.map (fun c => ReadResult.data (encodeEcho ⟨c⟩)) ++ [ReadResult.closed])
        (List.replicate msgs.length none)
      = HandlerResult.ok (msgs.map (fun c => encodeEcho ⟨c⟩)) ∧
    (msgs.map (fun c => encodeEcho ⟨c⟩)).length = msgs.length ∧
    Client.trace
        (msgs.map (fun c => ReadResult.data (encodeEcho ⟨c⟩)) ++ [ReadResult.closed])
        (List.replicate msgs.length none)
      = (msgs.map (fun c =>
            [SockOp.rd (ReadResult.data (encodeEcho ⟨c⟩)), SockOp.wr (encodeEcho ⟨c⟩)])).flatten
        ++ [SockOp.rd ReadResult.closed] := by
  replace h : ∀ c ∈ msgs, utf8Valid c = true := by simpa using h
  refine ⟨?_, by simp, ?_⟩
  · induction msgs with
    | nil => rfl
    | cons c cs ih =>
      have hc : utf8Valid c = true := h c (List.mem_cons_self c cs)
      have hcs : ∀ c' ∈ cs, utf8Valid c' = true :=
        fun c' hm => h c' (List.mem_cons_of_mem _ hm)
      simp only [List.map_cons, List.length_cons, List.replicate_succ, List.cons_append]
      rw [handle_data_some _ _ _ _ (decodeEcho_encodeEcho c hc)]
      rw [ih hcs]
      rfl
  · induction msgs with
    | nil => rfl
    | cons c cs ih =>
      have hc : utf8Valid c = true := h c (List.mem_cons_self c cs)
      have hcs : ∀ c' ∈ cs, utf8Valid c' = true :=
        fun c' hm => h c' (List.mem_cons_of_mem _ hm)
      simp only [List.map_cons, List.length_cons, List.replicate_succ, List.cons_append,
        List.flatten]
      rw [trace_data_some _ _ _ _ (decodeEcho_encodeEcho c hc)]
      rw [ih hcs]
      rfl

/-- Claim C9: the running flag is never set back to true: `Server::new`
initializes it true (on a successful bind), `stop()` always leaves it
false, `run()` only reads it (a schedule with no concurrent stop leaves it
exactly as it was), and consequently calling `run()` on a stopped server
returns `Ok(())` at its very first loop-condition check, executing no
accept iteration — a stopped server cannot be restarted. -/
theorem c9_flag_never_reset :
    (∀ mc : Nat, Server.new mc none = Except.ok (Server.mk mc true [])) ∧
    (∀ s : Server, (s.stop).1.isRunning = false) ∧
    (∀ (iters : List Iter) (s : Server), (∀ it ∈ iters, it.stopBefore = false) →
        (s.runLoop iters).1.isRunning = s.isRunning) ∧
    (∀ (s : Server) (it : Iter) (rest : List Iter), s.isRunning = false →
        s.runLoop (it :: rest) = (s, RunStatus.returnedOk)) :=
  ⟨fun _ => rfl, stop_isRunning, runLoop_no_stop_isRunning,
   fun s it rest h => runLoop_stopped s h it rest⟩

/-- Claim C10: on any socket script, the handler's successfully written
payloads are, in order, an initial segment of the re-encodings of the
`EchoMessage`s decoded from the data reads, and every written payload is
the prost encoding of some bare `EchoMessage` — the handler never
constructs an `AddResponse` or a tagged server-side union message. -/
theorem c10_only_bare_echo_written :
    ∀ (reads : List ReadResult) (ws : List (Option IoError)),
      (∃ tail, reads.filterMap echoResponseOf
          = writtenOf (Client.handle reads ws) ++ tail) ∧
      (∀ p ∈ writtenOf (Client.handle reads ws), ∃ m : EchoMessage, p = encodeEcho m) := by
  intro reads
  induction reads with
  | nil =>
    intro ws
    exact ⟨⟨[], rfl⟩, by intro p hp; cases hp⟩
  | cons r rs ih =>
    intro ws
    cases r with
    | closed =>
      refine ⟨⟨(ReadResult.closed :: rs).filterMap echoResponseOf, rfl⟩, ?_⟩
      intro p hp
      cases hp
    | readErr e =>
      refine ⟨⟨(ReadResult.readErr e :: rs).filterMap echoResponseOf, rfl⟩, ?_⟩
      intro p hp
      cases hp
    | data bs =>
      cases hd : decodeEcho bs with
      | none =>
        rw [handle_data_none bs rs ws hd]
        have hfm : (ReadResult.data bs :: rs).filterMap echoResponseOf
            = rs.filterMap echoResponseOf := by
          simp [List.filterMap_cons, echoResponseOf, hd]
        rw [hfm]
        exact ih ws
      | some m =>
        have hfm : (ReadResult.data bs :: rs).filterMap echoResponseOf
            = encodeEcho m :: rs.filterMap echoResponseOf := by
          simp [List.filterMap_cons, echoResponseOf, hd]
        rw [hfm]
        cases ws with
        | nil =>
          rw [Client.handle, hd]
          exact ⟨⟨encodeEcho m :: rs.filterMap echoResponseOf, rfl⟩,
            by intro p hp; cases hp⟩
        | cons w ws' =>
          cases w with
          | some e =>
            rw [Client.handle, hd]
            exact ⟨⟨encodeEcho m :: rs.filterMap echoResponseOf, rfl⟩,
              by intro p hp; cases hp⟩
          | none =>
            rw [handle_data_some bs m rs ws' hd, writtenOf_consWritten]
            obtain ⟨⟨tail, htail⟩, hall⟩ := ih ws'
            refine ⟨⟨tail, by rw [htail]; rfl⟩, ?_⟩
            intro p hp
            rcases List.mem_cons.mp hp with hp1 | hp2
            · exact ⟨m, hp1⟩
            · exact hall p hp2

/-- Witness for C2 at content "hi" ([104, 105]) on an otherwise empty
script. -/
theorem c2_echo_roundtrip_witness :
    utf8Valid [104, 105] = true ∧
    (decodeEcho (encodeEcho ⟨[104, 105]⟩) = some ⟨[104, 105]⟩ ∧
     Client.handle (ReadResult.data (encodeEcho ⟨[104, 105]⟩) :: []) (none :: [])
       = HandlerResult.consWritten (encodeEcho ⟨[104, 105]⟩) (Client.handle [] [])) :=
  ⟨by decide, c2_echo_roundtrip [104, 105] (by decide) [] []⟩

/-- Witness for C3: the malformed byte [0] (field number 0) is dropped and
the following valid echo message is still answered. -/
theorem c3_decode_failure_dropped_witness :
    decodeEcho [0] = none ∧ utf8Valid [104] = true ∧
    Client.handle (ReadResult.data [0] :: ReadResult.data (encodeEcho ⟨[104]⟩) :: [])
        (none :: [])
      = HandlerResult.consWritten (encodeEcho ⟨[104]⟩) (Client.handle [] []) :=
  ⟨by decide, by decide,
   c3_decode_failure_dropped.2 [0] [104] [] [] (by decide) (by decide)⟩

/-- Witness for C5: a write failure with error code 3 after decoding the
echo message [10, 1, 104] terminates the handler with exactly that error. -/
theorem c5_io_errors_are_connection_local_witness :
    decodeEcho [10, 1, 104] = some ⟨[104]⟩ ∧
    Client.handle (ReadResult.data [10, 1, 104] :: []) (some (IoError.mk 3) :: [])
      = HandlerResult.err (IoError.mk 3) [] :=
  ⟨by decide,
   c5_io_errors_are_connection_local.2.1 [10, 1, 104] ⟨[104]⟩ [] (IoError.mk 3) []
     (by decide)⟩

/-- Witness for C7: a stopped server with one outstanding worker exits its
run loop at the first check without touching the worker list. -/
theorem c7_flag_false_exits_loop_witness :
    (Server.mk 5 false [some (IoError.mk 9)]).isRunning = false ∧
    (Server.mk 5 false [some (IoError.mk 9)]).runLoop
        [Iter.mk false AcceptResult.wouldBlock]
      = (Server.mk 5 false [some (IoError.mk 9)], RunStatus.returnedOk) :=
  ⟨rfl, c7_flag_false_exits_loop _ (Iter.mk false AcceptResult.wouldBlock) [] rfl⟩

/-- Witness for C8 at the three contents "Hi", "Bye", "Ok". -/
theorem c8_sequential_echoes_in_order_witness :
    ([[72, 105], [66, 121, 101], [79, 107]] : List (List Nat)).all utf8Valid = true ∧
    (Client.handle
        (([[72, 105], [66, 121, 101], [79, 107]] : List (List Nat)).map
            (fun c => ReadResult.data (encodeEcho ⟨c⟩)) ++ [ReadResult.closed])
        (List.replicate ([[72, 105], [66, 121, 101], [79, 107]] : List (List Nat)).length none)
      = HandlerResult.ok
          (([[72, 105], [66, 121, 101], [79, 107]] : List (List Nat)).map
            (fun c => encodeEcho ⟨c⟩)) ∧
     (([[72, 105], [66, 121, 101], [79, 107]] : List (List Nat)).map
        (fun c => encodeEcho ⟨c⟩)).length
       = ([[72, 105], [66, 121, 101], [79, 107]] : List (List Nat)).length ∧
     Client.trace
        (([[72, 105], [66, 121, 101], [79, 107]] : List (List Nat)).map
            (fun c => ReadResult.data (encodeEcho ⟨c⟩)) ++ [ReadResult.closed])
        (List.replicate ([[72, 105], [66, 121, 101], [79, 107]] : List (List Nat)).length none)
      = (([[72, 105], [66, 121, 101], [79, 107]] : List (List Nat)).map
            (fun c =>
              [SockOp.rd (ReadResult.data (encodeEcho ⟨c⟩)),
               SockOp.wr (encodeEcho ⟨c⟩)])).flatten
        ++ [SockOp.rd ReadResult.closed]) :=
  ⟨by decide, c8_sequential_echoes_in_order [[72, 105], [66, 121, 101], [79, 107]] (by decide)⟩

/-- Witness for C9: running `run()` on a stopped server returns Ok at the
first check even when a redundant concurrent stop lands there. -/
theorem c9_flag_never_reset_witness :
    (Server.mk 2 false []).isRunning = false ∧
    (Server.mk 2 false []).runLoop [Iter.mk true AcceptResult.wouldBlock]
      = (Server.mk 2 false [], RunStatus.returnedOk) :=
  ⟨rfl, c9_flag_never_reset.2.2.2 _ (Iter.mk true AcceptResult.wouldBlock) [] rfl⟩

/-- Witness for C10 at a one-read script delivering the echo message
[10, 1, 104] with one successful write. -/
theorem c10_only_bare_echo_written_witness :
    (∃ tail, ([ReadResult.data [10, 1, 104]]).filterMap echoResponseOf
        = writtenOf (Client.handle [ReadResult.data [10, 1, 104]] [none]) ++ tail) ∧
    (∀ p ∈ writtenOf (Client.handle [ReadResult.data [10, 1, 104]] [none]),
        ∃ m : EchoMessage, p = encodeEcho m) :=
  c10_only_bare_echo_written [ReadResult.data [10, 1, 104]] [none]
